import Mathlib

/-!
Shallow embedding of the report-generation pipeline of `src/backend.py`
(LLM Stock Insights), together with proofs about its components:
the relevance filter for YouTube comments (`filter_financial_comments`),
the metrics engine (`compute_company_metrics`), the comment-corpus
analysis (`analyze_comments_with_anthropic`), the comment-corpus fetch
(`fetch_youtube_comments_for_query`, `fetch_comments_for_video`) and the
orchestrator (`generate_company_report`).

Modelling conventions:
* Python strings are Lean `String`s; the byte-level helpers below work on
  `List Char` (`String.data`) so that every operation reduces by kernel
  computation.  Python `str.lower` is modelled on ASCII letters (all
  keyword tables in the source are ASCII).
* Python floats are modelled as exact rationals `ℚ`.  The only
  irrational operation in the source is the final `math.sqrt(252)`
  scaling of the volatility; we model the square of that value
  (`volatility_annual_approx_sq`), which is present/absent exactly when
  the source value is.
* Python truthiness (`a or b`, `if not x`) is modelled explicitly:
  `None`, `0`, `0.0`, `""` and empty containers are falsy.
* Network effects are modelled by an explicit environment of oracle
  responses; each function returns its value together with the list of
  outbound calls it performed.
-/

namespace StockInsights

/-- Python `a or b` for optional strings (`None` and `""` are falsy). -/
def pyOrStr (a b : Option String) : Option String :=
  match a with
  | some s => if s = "" then b else some s
  | none => b

/-- Python `a or b` for optional numbers (`None`, `0` and `0.0` are falsy). -/
def pyOrQ (a b : Option ℚ) : Option ℚ :=
  match a with
  | some x => if x = 0 then b else some x
  | none => b

/-- Python truthiness of an optional string (`if not name`). -/
def optStrFalsy : Option String → Bool
  | none => true
  | some s => s == ""

/-- ASCII lower-casing of one character, modelling Python `str.lower` on
the ASCII subset actually used by the keyword tables. -/
def charLowerFn (c : Char) : Char :=
  if 'A' ≤ c ∧ c ≤ 'Z' then Char.ofNat (c.toNat + 32) else c

/-- Lower-cased character list of a string (`text.lower()`). -/
def pyLowerChars (s : String) : List Char := s.data.map charLowerFn

/-- Number of whitespace-separated words, modelling `len(text.split())`:
maximal nonempty runs of non-whitespace characters are counted. -/
def countWordsAux : Bool → List Char → Nat
  | _, [] => 0
  | inWord, c :: t =>
      if c.isWhitespace then countWordsAux false t
      else (if inWord then 0 else 1) + countWordsAux true t

/-- Length of the whitespace-stripped text, modelling `len(text.strip())`. -/
def pyStripLen (chars : List Char) : Nat :=
  (((chars.dropWhile Char.isWhitespace).reverse).dropWhile Char.isWhitespace).length

/-- Substring occurrence on character lists. -/
def listContainsSub (pat : List Char) : List Char → Bool
  | [] => pat.isEmpty
  | c :: t => pat.isPrefixOf (c :: t) || listContainsSub pat t

/-- Python `pat in hay` for a string pattern against a character list. -/
def strIn (pat : String) (hay : List Char) : Bool := listContainsSub pat.data hay

/-! ### Relevance filter (`filter_financial_comments`, backend.py 240-345) -/

/-- A YouTube comment record as built by `fetch_comments_for_video`
(`author`/`text` fields) or consumed by the analyzers (which also probe a
`body` field).  A field of `none` models an absent key. -/
structure Comment where
  author : Option String
  body : Option String
  text : Option String
deriving DecidableEq, Repr, Inhabited

/-- The `high_value_keywords` table (backend.py 253-269), in source order,
keyword with its weight. -/
def high_value_keywords : List (String × Nat) :=
  [("buy", 3), ("sell", 3), ("hold", 2), ("invest", 2), ("investing", 2), ("portfolio", 2),
   ("bullish", 3), ("bearish", 3), ("long term", 3), ("short term", 2),
   ("overvalued", 3), ("undervalued", 3), ("valuation", 2), ("target price", 3),
   ("fair value", 2), ("intrinsic value", 3), ("discounted", 2),
   ("pe ratio", 2), ("p/e", 2), ("eps", 2), ("revenue", 2), ("earnings", 2), ("profit", 2),
   ("dividend", 2), ("yield", 2), ("cash flow", 2), ("debt", 2), ("margin", 2),
   ("fundamentals", 2), ("analysis", 1), ("forecast", 2), ("prediction", 2), ("outlook", 2),
   ("due diligence", 3), ("dcf", 2), ("balance sheet", 2), ("income statement", 2),
   ("risk", 2), ("reward", 2), ("opportunity", 2), ("upside", 2), ("downside", 2),
   ("conviction", 2), ("thesis", 2), ("moat", 3), ("competitive advantage", 3)]

/-- The `medium_value_keywords` table (backend.py 271-277), in source order. -/
def medium_value_keywords : List String :=
  ["stock", "share", "price", "market cap", "growth", "quarter", "quarterly",
   "report", "guidance", "beat", "miss", "estimate", "market", "sector",
   "revenue", "sales", "profit", "margin", "roi", "return", "performance",
   "financial", "investor", "shareholder", "value", "worth", "evaluation",
   "recommendation", "rating", "upgrade", "downgrade", "catalyst", "momentum"]

/-- The `spam_keywords` table (backend.py 280-285), in source order. -/
def spam_keywords : List String :=
  ["subscribe", "like and subscribe", "check out my", "click here",
   "giveaway", "free money", "get rich", "first!", "early squad",
   "notification squad", "who else", "anyone else", "came here from",
   "full video", "check my channel", "dm me", "contact me", "crypto"]

/-- Relevance score of a lower-cased comment text (backend.py 305-324):
high-value keyword weights, plus one per medium-value keyword occurrence,
plus additive length bonuses. -/
def relevanceScore (text : List Char) : Nat :=
  let s1 := high_value_keywords.foldl
    (fun s kw => if strIn kw.1 text then s + kw.2 else s) 0
  let s2 := medium_value_keywords.foldl
    (fun s kw => if strIn kw text then s + 1 else s) s1
  let word_count := countWordsAux false text
  let s3 := if word_count > 30 then s2 + 1 else s2
  let s4 := if word_count > 50 then s3 + 2 else s3
  if word_count > 100 then s4 + 2 else s4

/-- A scored comment, the loop-local record of `filter_financial_comments`
(backend.py 328-332). -/
structure ScoredComment where
  comment : Comment
  score : Nat
  word_count : Nat
deriving DecidableEq, Repr

/-- Lower-cased characters of the `text` field of a comment
(`comment.get('text', '').lower()`, backend.py 290). -/
def commentTextChars (comment : Comment) : List Char :=
  pyLowerChars (comment.text.getD "")

/-- One iteration of the scoring loop of `filter_financial_comments`
(backend.py 289-332): `none` when the comment is rejected by the word
count, character count, spam or score gates. -/
def scoreComment (comment : Comment) : Option ScoredComment :=
  let text := commentTextChars comment
  let word_count := countWordsAux false text
  if word_count < 10 then none
  else if pyStripLen text < 40 then none
  else if spam_keywords.any (fun spam => strIn spam text) then none
  else
    let score := relevanceScore text
    if 4 ≤ score then some ⟨comment, score, word_count⟩ else none

/-- The sort relation of `scored_comments.sort(key=lambda x: x['score'],
reverse=True)` (backend.py 335): non-increasing score. -/
def rScore (a b : ScoredComment) : Prop := b.score ≤ a.score

instance : DecidableRel rScore := fun a b => Nat.decLe b.score a.score

instance : IsTotal ScoredComment rScore := ⟨fun a b => Nat.le_total b.score a.score⟩

instance : IsTrans ScoredComment rScore := ⟨fun _ _ _ h1 h2 => Nat.le_trans h2 h1⟩

/-- The relevance filter (backend.py 240-345): score every comment, drop
the rejected ones, sort the survivors by score descending.  Python
`list.sort` is stable; it is modelled by the (stable) insertion sort. -/
def filter_financial_comments (comments : List Comment) : List Comment :=
  let scored_comments := comments.filterMap scoreComment
  let sorted := scored_comments.insertionSort rScore
  sorted.map (fun item => item.comment)

/-- Score of a comment, recomputed from its text alone. -/
def commentScore (comment : Comment) : Nat :=
  relevanceScore (commentTextChars comment)

/-- The qualification predicate as the specification states it: word
count at least 10, stripped length at least 40, no spam phrase, relevance
score at least 4. -/
def qualifiesSpec (comment : Comment) : Bool :=
  let text := commentTextChars comment
  decide (10 ≤ countWordsAux false text) && decide (40 ≤ pyStripLen text)
    && !(spam_keywords.any (fun spam => strIn spam text))
    && decide (4 ≤ relevanceScore text)

/-- The scored record built for a qualifying comment. -/
def mkScored (c : Comment) : ScoredComment :=
  ⟨c, commentScore c, countWordsAux false (commentTextChars c)⟩

theorem scoreComment_eq (c : Comment) :
    scoreComment c = if qualifiesSpec c then some (mkScored c) else none := by
  simp only [scoreComment, qualifiesSpec, mkScored, commentScore]
  rcases Nat.lt_or_ge (countWordsAux false (commentTextChars c)) 10 with h1 | h1
  · simp [h1, Nat.not_le.mpr h1]
  · rcases Nat.lt_or_ge (pyStripLen (commentTextChars c)) 40 with h2 | h2
    · simp [h2, Nat.not_lt.mpr h1, Nat.not_le.mpr h2, h1]
    · by_cases h3 : spam_keywords.any (fun spam => strIn spam (commentTextChars c))
      · simp [h3, Nat.not_lt.mpr h1, Nat.not_lt.mpr h2]
      · rcases Nat.lt_or_ge (relevanceScore (commentTextChars c)) 4 with h4 | h4
        · simp [h3, Nat.not_lt.mpr h1, Nat.not_lt.mpr h2, Nat.not_le.mpr h4]
        · simp [h3, Nat.not_lt.mpr h1, Nat.not_lt.mpr h2, h4, h1, h2]

theorem filterMap_eq_filter_map {α β : Type} (f : α → Option β) (p : α → Bool) (g : α → β)
    (h : ∀ a, f a = if p a then some (g a) else none) (l : List α) :
    l.filterMap f = (l.filter p).map g := by
  induction l with
  | nil => rfl
  | cons a t ih =>
      simp only [List.filterMap_cons, List.filter_cons, h a]
      by_cases hp : p a <;> simp [hp, ih]

theorem filterMap_scoreComment (comments : List Comment) :
    comments.filterMap scoreComment = (comments.filter qualifiesSpec).map mkScored :=
  filterMap_eq_filter_map scoreComment qualifiesSpec mkScored scoreComment_eq comments

theorem ffc_eq (comments : List Comment) :
    filter_financial_comments comments
      = (List.insertionSort rScore (comments.filterMap scoreComment)).map
          (fun item => item.comment) := rfl

theorem comp_comment_mkScored :
    ((fun item : ScoredComment => item.comment) ∘ mkScored) = id := by
  funext c; rfl

theorem ffc_perm (comments : List Comment) :
    (filter_financial_comments comments).Perm (comments.filter qualifiesSpec) := by
  rw [ffc_eq]
  refine ((List.perm_insertionSort rScore (comments.filterMap scoreComment)).map
    (fun item => item.comment)).trans ?_
  rw [filterMap_scoreComment, List.map_map, comp_comment_mkScored, List.map_id]

theorem mem_scored_eq {x : ScoredComment} {comments : List Comment}
    (hx : x ∈ comments.filterMap scoreComment) : x = mkScored x.comment := by
  rw [filterMap_scoreComment] at hx
  obtain ⟨c, -, rfl⟩ := List.mem_map.mp hx
  rfl

theorem ffc_pairwise (comments : List Comment) :
    (filter_financial_comments comments).Pairwise
      (fun a b => commentScore b ≤ commentScore a) := by
  rw [ffc_eq, List.pairwise_map]
  have hs : (List.insertionSort rScore (comments.filterMap scoreComment)).Pairwise rScore :=
    List.sorted_insertionSort rScore (comments.filterMap scoreComment)
  refine hs.imp_of_mem ?_
  intro a b ha hb hab
  have ha' : a = mkScored a.comment :=
    mem_scored_eq ((List.mem_insertionSort rScore).mp ha)
  have hb' : b = mkScored b.comment :=
    mem_scored_eq ((List.mem_insertionSort rScore).mp hb)
  have : b.score ≤ a.score := hab
  rw [ha', hb'] at this
  exact this

theorem ffc_stable (comments : List Comment) (s : Nat) :
    (filter_financial_comments comments).filter (fun c => commentScore c = s)
      = (comments.filter qualifiesSpec).filter (fun c => commentScore c = s) := by
  classical
  set scored := comments.filterMap scoreComment with hscored
  set q : ScoredComment → Bool := fun item => decide (commentScore item.comment = s) with hq
  set d := scored.filter q with hd
  have hdq : ∀ x ∈ d, q x = true := fun x hx => (List.mem_filter.mp hx).2
  have hdpair : d.Pairwise rScore := by
    apply List.pairwise_of_forall_mem_list
    intro a ha b hb
    have ha' : a = mkScored a.comment := mem_scored_eq (List.mem_of_mem_filter ha)
    have hb' : b = mkScored b.comment := mem_scored_eq (List.mem_of_mem_filter hb)
    have hsa : commentScore a.comment = s := of_decide_eq_true (hdq a ha)
    have hsb : commentScore b.comment = s := of_decide_eq_true (hdq b hb)
    show b.score ≤ a.score
    rw [ha', hb']
    simp [mkScored, hsa, hsb]
  have hsub : List.Sublist d (List.insertionSort rScore scored) :=
    List.sublist_insertionSort hdpair (List.filter_sublist scored)
  have hfs : d.filter q = d := List.filter_eq_self.mpr hdq
  have hsub2 : List.Sublist d ((List.insertionSort rScore scored).filter q) := by
    have h2 := hsub.filter q
    rwa [hfs] at h2
  have hperm : ((List.insertionSort rScore scored).filter q).Perm d :=
    (List.perm_insertionSort rScore scored).filter q
  have heq : d = (List.insertionSort rScore scored).filter q :=
    hsub2.eq_of_length hperm.length_eq.symm
  rw [ffc_eq, List.filter_map]
  have hcongr : ((fun c => decide (commentScore c = s))
      ∘ (fun item : ScoredComment => item.comment)) = q := by
    funext item; rfl
  rw [hcongr, ← heq, hd, hscored, filterMap_scoreComment, List.filter_map]
  have hcongr2 : (q ∘ mkScored) = fun c => decide (commentScore c = s) := by
    funext c; rfl
  rw [hcongr2, List.map_map, comp_comment_mkScored, List.map_id]

theorem mem_ffc_qualifies {c : Comment} {comments : List Comment}
    (hc : c ∈ filter_financial_comments comments) : qualifiesSpec c = true := by
  have h := (ffc_perm comments).mem_iff.mp hc
  exact (List.mem_filter.mp h).2

theorem filterMap_eq_map_of_mem {α β : Type} {f : α → Option β} {g : α → β} {l : List α}
    (h : ∀ a ∈ l, f a = some (g a)) : l.filterMap f = l.map g := by
  induction l with
  | nil => rfl
  | cons a t ih =>
      rw [List.filterMap_cons, h a (List.mem_cons_self a t), List.map_cons,
        ih (fun x hx => h x (List.mem_cons_of_mem a hx))]

theorem ffc_idem (comments : List Comment) :
    filter_financial_comments (filter_financial_comments comments)
      = filter_financial_comments comments := by
  set out := filter_financial_comments comments with hout
  have h1 : out.filterMap scoreComment = out.map mkScored := by
    apply filterMap_eq_map_of_mem
    intro c hc
    rw [scoreComment_eq, if_pos]
    exact mem_ffc_qualifies (hout ▸ hc)
  have h2 : (out.map mkScored).Pairwise rScore := by
    rw [List.pairwise_map]
    exact (ffc_pairwise comments).imp (fun h => h)
  rw [ffc_eq, h1, List.Sorted.insertionSort_eq h2, List.map_map,
    comp_comment_mkScored, List.map_id]

/-! ### Metrics engine (`compute_company_metrics`, backend.py 476-541) -/

/-- The subset of the market-data provider `info` mapping read by the
source; a field of `none` models an absent key.  An entirely absent or
empty `info` dict is modelled as `none` at the use sites. -/
structure Info where
  longName : Option String := none
  shortName : Option String := none
  longBusinessSummary : Option String := none
  shortBusinessSummary : Option String := none
  marketCap : Option ℚ := none
  trailingPE : Option ℚ := none
  forwardPE : Option ℚ := none
  beta : Option ℚ := none
  sector : Option String := none
  industry : Option String := none
  website : Option String := none
  country : Option String := none
deriving DecidableEq, Repr, Inhabited

/-- One row of the price history.  The source reads each row
permissively: `row.get("Close") or row.get("close")` and
`row.get("Volume") or row.get("volume")` (backend.py 497-499), so a row
carries the capitalized and the lower-cased spelling of each field.
Values are modelled as rationals (in the source the `float(c)` / `int(v)`
conversions can only fail on non-numeric values, which are outside this
model; such a failure would skip the whole row). -/
structure HistRow where
  Close : Option ℚ := none
  close : Option ℚ := none
  Volume : Option ℚ := none
  volume : Option ℚ := none
deriving DecidableEq, Repr, Inhabited

/-- Python `int(v)`: truncation toward zero. -/
def pyInt (q : ℚ) : ℤ := q.num / (q.den : ℤ)

/-- The close value the source extracts from one row (backend.py 498). -/
def rowClose (row : HistRow) : Option ℚ := pyOrQ row.Close row.close

/-- The volume value the source extracts from one row (backend.py 499). -/
def rowVolume (row : HistRow) : Option ℚ := pyOrQ row.Volume row.volume

/-- The `closes` sample list built by the history loop (backend.py 494-506). -/
def closesOf (history : List HistRow) : List ℚ := history.filterMap rowClose

/-- The `volumes` sample list built by the history loop (backend.py 494-506),
after the `int(v)` conversion. -/
def volumesOf (history : List HistRow) : List ℤ :=
  (history.filterMap rowVolume).map pyInt

/-- The inner `moving_average` helper (backend.py 517-520): `None` when
fewer than `window` samples, else the mean of the trailing window.
The source only calls it with `window ≥ 1`. -/
def moving_average (values : List ℚ) (window : Nat) : Option ℚ :=
  if values.length < window then none
  else some ((values.drop (values.length - window)).sum / (window : ℚ))

/-- The `pct_change` computation (backend.py 510-513): the `try/except`
converts the division by a zero first close into `None`. -/
def pctChangeOf (closes : List ℚ) : Option ℚ :=
  match closes with
  | [] => none
  | first :: rest =>
      if first = 0 then none
      else some (((first :: rest).getLastD 0 - first) / first * 100)

/-- The day-over-day simple returns (backend.py 526-531); the inner
`try/except` skips a return whose base close is zero. -/
def returnsOf : List ℚ → List ℚ
  | a :: b :: t => if a = 0 then returnsOf (b :: t) else ((b - a) / a) :: returnsOf (b :: t)
  | _ => []

/-- Population variance, the square of `statistics.pstdev` (backend.py 533).
Only used on nonempty lists. -/
def pvariance (xs : List ℚ) : ℚ :=
  let n : ℚ := xs.length
  let m := xs.sum / n
  ((xs.map (fun x => (x - m) ^ 2)).sum) / n

/-- The metrics mapping produced by `compute_company_metrics`
(backend.py 476-541).  A field of `none` models a key that is absent or
explicitly `None`.  `volatility_annual_approx_sq` is the square of the
source's `volatility_annual_approx` (`pstdev * sqrt(252)`), keeping the
model inside `ℚ`; it is present exactly when the source value is. -/
structure Metrics where
  market_cap : Option ℚ
  trailing_pe : Option ℚ
  forward_pe : Option ℚ
  beta : Option ℚ
  sector : Option String
  industry : Option String
  period_pct_change : Option ℚ
  ma_50 : Option ℚ
  ma_200 : Option ℚ
  volatility_annual_approx_sq : Option ℚ
  avg_volume : Option ℚ
deriving DecidableEq, Repr

/-- The market-data fetch result (`fetch_yahoo_company`), as consumed by
the metrics engine and the comparator.  `metrics_text` models the
`_metrics_text` entry the orchestrator attaches (backend.py 644). -/
structure YahooData where
  info : Option Info := none
  summary : String := ""
  history : Option (List HistRow) := none
  metrics_text : String := ""
deriving DecidableEq, Repr, Inhabited

/-- The metrics engine (backend.py 476-541).  `yahoo.get("info") or {}`
and `yahoo.get("history") or []` are the truthiness fallbacks of lines
482-483; the `if closes:` / `if volumes:` guards of lines 508/538 become
emptiness tests, with all keys of the guarded blocks absent otherwise. -/
def compute_company_metrics (yahoo : YahooData) : Metrics :=
  let info := yahoo.info
  let history := yahoo.history.getD []
  let closes := closesOf history
  let volumes := volumesOf history
  { market_cap := info.bind (fun i => i.marketCap)
    trailing_pe := info.bind (fun i => i.trailingPE)
    forward_pe := info.bind (fun i => i.forwardPE)
    beta := info.bind (fun i => i.beta)
    sector := info.bind (fun i => i.sector)
    industry := info.bind (fun i => i.industry)
    period_pct_change := if closes = [] then none else pctChangeOf closes
    ma_50 := if closes = [] then none else
      pyOrQ (moving_average closes 50) (moving_average closes (min 10 closes.length))
    ma_200 := if closes = [] then none else
      pyOrQ (moving_average closes 200) (moving_average closes (min 50 closes.length))
    volatility_annual_approx_sq := if closes = [] then none else
      (if returnsOf closes = [] then none else some (pvariance (returnsOf closes) * 252))
    avg_volume := if volumes = [] then none else
      some (((volumes.map (Int.cast : ℤ → ℚ)).sum) / (volumes.length : ℚ)) }

/-- A history row carrying only a capitalized close field, the shape the
market-data fetcher produces. -/
def rowOfClose (q : ℚ) : HistRow := { Close := some q }

theorem closesOf_map_rowOfClose (cs : List ℚ) (h : ∀ x ∈ cs, x ≠ 0) :
    closesOf (cs.map rowOfClose) = cs := by
  induction cs with
  | nil => rfl
  | cons a t ih =>
      have ha : a ≠ 0 := h a (List.mem_cons_self a t)
      have ht := ih (fun x hx => h x (List.mem_cons_of_mem a hx))
      simp only [closesOf, List.map_cons, List.filterMap_cons] at ht ⊢
      simp [rowClose, rowOfClose, pyOrQ, ha, ht]

/-- Arithmetic progression of rationals: `n` terms starting at `a` with
common difference `d`. -/
def arithSeq (a d : ℚ) : Nat → List ℚ
  | 0 => []
  | n + 1 => a :: arithSeq (a + d) d n

theorem length_arithSeq (d : ℚ) : ∀ (n : Nat) (a : ℚ), (arithSeq a d n).length = n
  | 0, _ => rfl
  | n + 1, a => by simp [arithSeq, length_arithSeq d n]

theorem mem_arithSeq (d : ℚ) :
    ∀ {n : Nat} {a x : ℚ}, x ∈ arithSeq a d n → ∃ k : Nat, k < n ∧ x = a + k * d := by
  intro n
  induction n with
  | zero => intro a x hx; simp [arithSeq] at hx
  | succ n ih =>
      intro a x hx
      rcases List.mem_cons.mp hx with h | h
      · exact ⟨0, Nat.succ_pos n, by simp [h]⟩
      · obtain ⟨k, hk, hxk⟩ := ih h
        refine ⟨k + 1, Nat.succ_lt_succ hk, ?_⟩
        rw [hxk]; push_cast; ring

theorem chain'_arithSeq (d : ℚ) (hd : 0 < d) :
    ∀ (n : Nat) (a : ℚ), List.Chain' (· < ·) (arithSeq a d n)
  | 0, _ => List.chain'_nil
  | 1, _ => List.chain'_singleton _
  | n + 2, a => by
      have ih := chain'_arithSeq d hd (n + 1) (a + d)
      rw [show arithSeq a d (n + 2) = a :: (a + d) :: arithSeq (a + d + d) d n from rfl]
      rw [show arithSeq (a + d) d (n + 1) = (a + d) :: arithSeq (a + d + d) d n from rfl] at ih
      exact List.Chain'.cons (by linarith) ih

theorem sum_arithSeq (d : ℚ) :
    ∀ (n : Nat) (a : ℚ), (arithSeq a d n).sum = n * a + d * (n * (n - 1)) / 2
  | 0, a => by simp [arithSeq]
  | n + 1, a => by
      have ih := sum_arithSeq d n (a + d)
      rw [arithSeq, List.sum_cons, ih]
      push_cast
      ring

theorem drop_arithSeq (d : ℚ) :
    ∀ (k n : Nat) (a : ℚ), (arithSeq a d n).drop k = arithSeq (a + k * d) d (n - k)
  | 0, n, a => by simp
  | k + 1, 0, a => by simp [arithSeq]
  | k + 1, n + 1, a => by
      rw [show arithSeq a d (n + 1) = a :: arithSeq (a + d) d n from rfl, List.drop_succ_cons,
        drop_arithSeq d k n (a + d), Nat.succ_sub_succ]
      congr 1
      push_cast
      ring

/-- The first 100 samples of the counterexample series: −299, −298, ..., −200. -/
def c8part1 : List ℚ := arithSeq (-299) 1 100

/-- The last 200 samples of the counterexample series: −199, −197, ..., 199;
they sum to exactly zero. -/
def c8part2 : List ℚ := arithSeq (-199) 2 200

/-- The 300-sample strictly increasing close series witnessing the
truthiness slip in `ma_200`: the mean of its last 200 values is exactly
zero, so `moving_average(closes, 200) or moving_average(closes, ...)`
falls through to the 50-sample fallback. -/
def c8closes : List ℚ := c8part1 ++ c8part2

/-- The history made of the `c8closes` series. -/
def c8yahoo : YahooData := { history := some (c8closes.map rowOfClose) }

theorem c8closes_length : c8closes.length = 300 := by
  simp [c8closes, c8part1, c8part2, length_arithSeq]

theorem c8closes_nonzero : ∀ x ∈ c8closes, x ≠ 0 := by
  intro x hx
  rcases List.mem_append.mp hx with h | h
  · obtain ⟨k, hk, hxk⟩ := mem_arithSeq 1 h
    have hkq : (k : ℚ) < 100 := by exact_mod_cast hk
    rw [hxk]; intro h0; linarith
  · obtain ⟨k, hk, hxk⟩ := mem_arithSeq 2 h
    rw [hxk]; intro h0
    have h2k : ((2 * k : ℕ) : ℚ) = ((199 : ℕ) : ℚ) := by push_cast; linarith
    have h2k' : 2 * k = 199 := Nat.cast_injective h2k
    omega

theorem c8closes_chain : List.Chain' (· < ·) c8closes := by
  rw [c8closes, List.chain'_append]
  refine ⟨chain'_arithSeq 1 one_pos 100 (-299), chain'_arithSeq 2 two_pos 200 (-199), ?_⟩
  intro x hx y hy
  have hx1 : x ∈ c8part1 := List.mem_of_getLast?_eq_some hx
  obtain ⟨k, hk, hxk⟩ := mem_arithSeq 1 hx1
  have hy1 : y = -199 := by
    have : c8part2.head? = some (-199) := rfl
    rw [this] at hy
    exact (Option.mem_some_iff.mp hy).symm
  have hkq : (k : ℚ) < 100 := by exact_mod_cast hk
  rw [hxk, hy1]; linarith

theorem c8closes_drop_100 : c8closes.drop 100 = c8part2 :=
  List.drop_left' (by simp [c8part1, length_arithSeq])

theorem c8closes_sum_drop_100 : (c8closes.drop 100).sum = 0 := by
  rw [c8closes_drop_100, c8part2, sum_arithSeq]
  norm_num

theorem c8_ma_200 : (compute_company_metrics c8yahoo).ma_200 = some 150 := by
  have hcl : closesOf (c8closes.map rowOfClose) = c8closes :=
    closesOf_map_rowOfClose c8closes c8closes_nonzero
  have hne : c8closes ≠ [] := by
    intro hc
    have := congrArg List.length hc
    rw [c8closes_length] at this
    simp at this
  show (if closesOf (c8closes.map rowOfClose) = [] then none else
      pyOrQ (moving_average (closesOf (c8closes.map rowOfClose)) 200)
        (moving_average (closesOf (c8closes.map rowOfClose))
          (min 50 (closesOf (c8closes.map rowOfClose)).length)))
    = some 150
  rw [hcl, if_neg hne]
  have h200 : moving_average c8closes 200 = some 0 := by
    rw [moving_average, if_neg (by rw [c8closes_length]; omega), c8closes_length]
    rw [show (300 : Nat) - 200 = 100 from rfl, c8closes_sum_drop_100]
    norm_num
  have h50 : moving_average c8closes (min 50 c8closes.length) = some 150 := by
    rw [c8closes_length]
    rw [show min 50 300 = 50 from rfl, moving_average,
      if_neg (by rw [c8closes_length]; omega), c8closes_length]
    rw [show (300 : Nat) - 50 = 250 from rfl,
      show (250 : Nat) = 100 + 150 from rfl, ← List.drop_drop, c8closes_drop_100,
      c8part2, drop_arithSeq]
    rw [sum_arithSeq]
    norm_num
  rw [h200, h50, pyOrQ]
  norm_num

theorem metrics_of_empty_history (yahoo : YahooData)
    (h : yahoo.history.getD [] = []) :
    (compute_company_metrics yahoo).period_pct_change = none
    ∧ (compute_company_metrics yahoo).ma_50 = none
    ∧ (compute_company_metrics yahoo).ma_200 = none
    ∧ (compute_company_metrics yahoo).volatility_annual_approx_sq = none
    ∧ (compute_company_metrics yahoo).avg_volume = none := by
  simp [compute_company_metrics, h, closesOf, volumesOf]

theorem ma_200_of_increasing_positive (cs : List ℚ)
    (hmono : List.Chain' (· < ·) cs) (hlen : cs.length = 300)
    (hpos : ∀ x ∈ cs, 0 < x) (info : Option Info) (mt s : String) :
    (compute_company_metrics
        { info := info, summary := s, history := some (cs.map rowOfClose), metrics_text := mt }).ma_200
      = some ((cs.drop 100).sum / 200) := by
  have hne : ∀ x ∈ cs, x ≠ 0 := fun x hx => ne_of_gt (hpos x hx)
  have hcl : closesOf (cs.map rowOfClose) = cs := closesOf_map_rowOfClose cs hne
  have hcs_ne : cs ≠ [] := by
    intro hc; rw [hc] at hlen; simp at hlen
  have hsum_pos : 0 < (cs.drop 100).sum := by
    apply List.sum_pos
    · exact fun x hx => hpos x (List.mem_of_mem_drop hx)
    · intro hc
      have := congrArg List.length hc
      rw [List.length_drop, hlen] at this
      simp at this
  show (if closesOf (cs.map rowOfClose) = [] then none else
      pyOrQ (moving_average (closesOf (cs.map rowOfClose)) 200)
        (moving_average (closesOf (cs.map rowOfClose)) (min 50 (closesOf (cs.map rowOfClose)).length)))
    = some ((cs.drop 100).sum / 200)
  rw [hcl, if_neg hcs_ne]
  have hma : moving_average cs 200 = some ((cs.drop 100).sum / 200) := by
    rw [moving_average, if_neg (by rw [hlen]; omega), hlen]
    norm_num
  rw [hma, pyOrQ, if_neg]
  positivity

theorem closesOf_cap_only (history : List HistRow)
    (h : ∀ r ∈ history, r.close = none) :
    closesOf history
      = (history.filterMap (fun r => r.Close)).filter (fun x => decide (x ≠ 0)) := by
  induction history with
  | nil => rfl
  | cons r t ih =>
      have hr : r.close = none := h r (List.mem_cons_self r t)
      have ht := ih (fun x hx => h x (List.mem_cons_of_mem r hx))
      simp only [closesOf, List.filterMap_cons] at ht ⊢
      cases hC : r.Close with
      | none => simp [rowClose, pyOrQ, hr, hC, ht]
      | some x =>
          by_cases hx : x = 0
          · simp [rowClose, pyOrQ, hr, hC, hx, ht]
          · simp [rowClose, pyOrQ, hr, hC, hx, ht]

theorem volumesOf_cap_only (history : List HistRow)
    (h : ∀ r ∈ history, r.volume = none) :
    volumesOf history
      = ((history.filterMap (fun r => r.Volume)).filter (fun x => decide (x ≠ 0))).map pyInt := by
  induction history with
  | nil => rfl
  | cons r t ih =>
      have hr : r.volume = none := h r (List.mem_cons_self r t)
      have ht := ih (fun x hx => h x (List.mem_cons_of_mem r hx))
      simp only [volumesOf, List.filterMap_cons] at ht ⊢
      cases hV : r.Volume with
      | none => simp [rowVolume, pyOrQ, hr, hV, ht]
      | some x =>
          by_cases hx : x = 0
          · simp [rowVolume, pyOrQ, hr, hV, hx, ht]
          · simp [rowVolume, pyOrQ, hr, hV, hx, ht]

/-! ### Claim theorems for the relevance filter and the metrics engine -/

/-- C1: for every input list of comment records, `filter_financial_comments`
returns exactly (as a permutation) those input comments whose lowercased
text has word count at least 10, stripped length at least 40, no spam
phrase, and score at least 4; the output is sorted by non-increasing
score, and comments of equal score keep their original relative order. -/
theorem claim_C1 (comments : List Comment) :
    (filter_financial_comments comments).Perm (comments.filter qualifiesSpec)
    ∧ (filter_financial_comments comments).Pairwise
        (fun a b => commentScore b ≤ commentScore a)
    ∧ ∀ s : Nat,
        (filter_financial_comments comments).filter (fun c => commentScore c = s)
          = (comments.filter qualifiesSpec).filter (fun c => commentScore c = s) :=
  ⟨ffc_perm comments, ffc_pairwise comments, ffc_stable comments⟩

/-- C9: the relevance filter is deterministic (two applications to the
same list agree) and idempotent (filtering its own output returns that
output unchanged). -/
theorem claim_C9 (comments : List Comment) :
    filter_financial_comments comments = filter_financial_comments comments
    ∧ filter_financial_comments (filter_financial_comments comments)
        = filter_financial_comments comments :=
  ⟨rfl, ffc_idem comments⟩

/-- C3: when the price history is empty, every derived numeric field of
the metrics result (period percent change, both moving averages,
annualized volatility, average volume) is absent. -/
theorem claim_C3 (yahoo : YahooData) (h : yahoo.history.getD [] = []) :
    (compute_company_metrics yahoo).period_pct_change = none
    ∧ (compute_company_metrics yahoo).ma_50 = none
    ∧ (compute_company_metrics yahoo).ma_200 = none
    ∧ (compute_company_metrics yahoo).volatility_annual_approx_sq = none
    ∧ (compute_company_metrics yahoo).avg_volume = none :=
  metrics_of_empty_history yahoo h

theorem claim_C3_witness :
    (({ history := some [] } : YahooData).history.getD [] = [])
    ∧ (compute_company_metrics { history := some [] }).period_pct_change = none
    ∧ (compute_company_metrics { history := some [] }).ma_50 = none
    ∧ (compute_company_metrics { history := some [] }).ma_200 = none
    ∧ (compute_company_metrics { history := some [] }).volatility_annual_approx_sq = none
    ∧ (compute_company_metrics { history := some [] }).avg_volume = none :=
  ⟨rfl, claim_C3 { history := some [] } rfl⟩

/-- C8 as stated is false: `ma_200` is computed as
`moving_average(closes, 200) or moving_average(closes, min(50, N))`, and
Python `or` treats the float `0.0` as falsy.  On the strictly increasing
300-sample series `c8closes` the mean of the last 200 closes is exactly
`0`, so the code falls back to the 50-sample mean `150` instead. -/
theorem claim_C8_counterexample :
    List.Chain' (· < ·) c8closes
    ∧ c8closes.length = 300
    ∧ closesOf (c8closes.map rowOfClose) = c8closes
    ∧ (c8closes.drop 100).sum / 200 = (0 : ℚ)
    ∧ (compute_company_metrics c8yahoo).ma_200 = some 150
    ∧ (150 : ℚ) ≠ 0 := by
  refine ⟨c8closes_chain, c8closes_length,
    closesOf_map_rowOfClose c8closes c8closes_nonzero, ?_, c8_ma_200, by norm_num⟩
  rw [c8closes_sum_drop_100]
  norm_num

/-- C8 amended: for every strictly increasing close-price series of
length 300 all of whose values are positive (so that no close is dropped
by the zero-truthiness read and the 200-sample mean cannot be the falsy
`0.0`), the `ma_200` field equals the arithmetic mean of the last 200
close values. -/
theorem claim_C8 (cs : List ℚ) (hmono : List.Chain' (· < ·) cs)
    (hlen : cs.length = 300) (hpos : ∀ x ∈ cs, 0 < x)
    (info : Option Info) (mt s : String) :
    (compute_company_metrics
        { info := info, summary := s, history := some (cs.map rowOfClose),
          metrics_text := mt }).ma_200
      = some ((cs.drop 100).sum / 200) :=
  ma_200_of_increasing_positive cs hmono hlen hpos info mt s

/-- The series 1, 2, ..., 300 used to witness the amended C8. -/
def c8witClosesW : List ℚ := arithSeq 1 1 300

theorem claim_C8_witness :
    (compute_company_metrics
        { info := none, summary := "", history := some (c8witClosesW.map rowOfClose),
          metrics_text := "" }).ma_200
      = some ((c8witClosesW.drop 100).sum / 200) := by
  have hpos : ∀ x ∈ c8witClosesW, 0 < x := by
    intro x hx
    obtain ⟨k, -, hxk⟩ := mem_arithSeq 1 hx
    have hkq : (0 : ℚ) ≤ (k : ℚ) := Nat.cast_nonneg k
    rw [hxk]; linarith
  exact claim_C8 c8witClosesW (chain'_arithSeq 1 one_pos 300 1)
    (length_arithSeq 1 300 1) hpos none "" ""

/-- The row showing that a zero capitalized `Close` is not always
excluded: the permissive read falls through to the lower-cased key. -/
def c10row : HistRow := { Close := some 0, close := some 5 }

/-- C10 as stated is false: a history row whose `Close` value is exactly
`0` is not excluded from the close sample set when the row also carries a
truthy lower-cased `close` value; the truthiness fallback reads that
value instead. -/
theorem claim_C10_counterexample :
    c10row.Close = some 0 ∧ closesOf [c10row] = [5]
    ∧ ([5] : List ℚ) ≠ [] := by
  refine ⟨rfl, by decide, by decide⟩

/-- C10 amended: when every history row carries only the capitalized
field spellings (the shape the market-data fetcher produces), every row
whose `Close` value is exactly `0` (resp. `Volume` exactly `0`) is
silently excluded from the close (resp. volume) sample set; consequently
every collected close is nonzero — a leading zero close never reaches the
percent-change division — and the derived metrics are computed over only
the nonzero samples. -/
theorem claim_C10 (history : List HistRow)
    (h : ∀ r ∈ history, r.close = none ∧ r.volume = none) :
    closesOf history
      = (history.filterMap (fun r => r.Close)).filter (fun x => decide (x ≠ 0))
    ∧ volumesOf history
      = ((history.filterMap (fun r => r.Volume)).filter (fun x => decide (x ≠ 0))).map pyInt
    ∧ (∀ x ∈ closesOf history, x ≠ 0) := by
  refine ⟨closesOf_cap_only history (fun r hr => (h r hr).1),
    volumesOf_cap_only history (fun r hr => (h r hr).2), ?_⟩
  rw [closesOf_cap_only history (fun r hr => (h r hr).1)]
  intro x hx
  exact of_decide_eq_true (List.mem_filter.mp hx).2

/-- The two-row history used to witness the amended C10. -/
def c10histW : List HistRow :=
  [{ Close := some 0, Volume := some 0 }, { Close := some 3, Volume := some (5/2) }]

theorem claim_C10_witness :
    (∀ r ∈ c10histW, r.close = none ∧ r.volume = none)
    ∧ (closesOf c10histW
        = (c10histW.filterMap (fun r => r.Close)).filter (fun x => decide (x ≠ 0))
      ∧ volumesOf c10histW
        = ((c10histW.filterMap (fun r => r.Volume)).filter (fun x => decide (x ≠ 0))).map pyInt
      ∧ (∀ x ∈ closesOf c10histW, x ≠ 0)) :=
  ⟨by decide, claim_C10 c10histW (by decide)⟩

/-! ### LLM synthesizer, comment-corpus fetch and orchestrator

Network and provider effects are modelled by an `Env` of oracle
responses; every effectful function returns its result together with the
list of outbound `Call`s it performed.  The validation info fetch is the
gate itself and is consumed directly from `Env.infoFetch`; the `Call`
trace records the source fetches and LLM calls performed after it. -/

/-- A Python value, for dictionaries whose shape is only known at run
time (parsed LLM payloads and analysis results). -/
inductive PyVal where
  | null
  | boolVal (b : Bool)
  | num (q : ℚ)
  | str (s : String)
  | arr (elems : List PyVal)
  | obj (fields : List (String × PyVal))

/-- A Python dict with string keys, in insertion order. -/
abbrev Dict := List (String × PyVal)

/-- Python `d.get(k)`. -/
def dictGet (d : Dict) (k : String) : Option PyVal :=
  (d.find? (fun kv => kv.1 == k)).map (fun kv => kv.2)

/-- Python `d.setdefault(k, v)`: unchanged when the key exists, else the
pair is appended (insertion order). -/
def dictSetdefault (d : Dict) (k : String) (v : PyVal) : Dict :=
  match dictGet d k with
  | some _ => d
  | none => d ++ [(k, v)]

/-- A prompt is modelled by the data the `prompts.py` template embeds
(`build_analyze_comments_prompt` / `build_compare_prompt`); the fixed
surrounding instruction text of the templates carries no program state. -/
inductive Prompt where
  | analyzeComments (sample_texts : List String)
  | compare (yahoo_summary web_summary : String) (social_summaries : List Dict)
      (metrics_text : String)

/-- One outbound provider call. -/
inductive Call where
  | fetchYahoo
  | fetchWikipedia
  | youtubeSearch
  | youtubeCommentThreads (video_id : String)
  | llm (prompt : Prompt)

/-- One page of a YouTube `commentThreads` response: HTTP status, the
top-level comments of the page, and whether a `nextPageToken` is present. -/
structure Page where
  status : Nat
  items : List Comment
  nextPageToken : Bool
deriving Repr, Inhabited

/-- One item of a YouTube search response. -/
structure VideoItem where
  videoId : String
  title : String
deriving DecidableEq, Repr, Inhabited

/-- The per-video summary stored by `fetch_youtube_comments_for_query`
(backend.py 223-228). -/
structure VideoSummary where
  video_id : String
  title : String
  url : String
  top_comments : List Comment
deriving DecidableEq, Repr

/-- The dict returned by `fetch_youtube_comments_for_query`. -/
structure YTData where
  all_comments : List Comment
  videos : List VideoSummary
deriving DecidableEq, Repr

/-- Outcome of the YouTube search request: a raised exception or a
response with its HTTP status and items. -/
inductive SearchOutcome where
  | exn (e : String)
  | resp (status : Nat) (items : List VideoItem)

/-- A Wikipedia page result; `none` at use sites models the empty dict
returned when no page matches. -/
structure WikiPage where
  title : Option String := none
  summary : Option String := none
  url : Option String := none
deriving DecidableEq, Repr

/-- The environment of oracle responses standing for the external
providers: the validation info fetch, the market-data fetch result, the
encyclopedic-summary result, the video-platform key/search/comment-page
responses, the LLM key and per-prompt responses, the `json.loads`
behavior on each candidate span (`none` models a raised parse error or a
non-object payload), and the report timestamp. -/
structure Env where
  infoFetch : Except String (Option Info)
  yahooData : YahooData
  wiki : Option WikiPage
  youtubeKey : String
  search : SearchOutcome
  commentPages : String → List Page
  anthropicKey : String
  llmResponse : Prompt → Except String String
  jsonParse : String → Option Dict
  now : String

/-- `anthropic_complete` (backend.py 394-436): raises before any call
when the key is unset, otherwise performs one provider call whose
outcome the environment supplies (`max_tokens`/`temperature` carry no
modelled state). -/
def anthropic_complete (env : Env) (prompt : Prompt) : Except String String × List Call :=
  if env.anthropicKey = "" then (Except.error "ANTHROPIC_API_KEY not configured", [])
  else (env.llmResponse prompt, [Call.llm prompt])

/-- Python `c.get("body") or c.get("text") or ""` (backend.py 453). -/
def bodyOrText (c : Comment) : String :=
  (pyOrStr c.body (pyOrStr c.text (some ""))).getD ""

/-- `safe_truncate` (backend.py 31-34). -/
def safe_truncate (text : String) (max_len : Nat) : String :=
  if text = "" then text
  else if text.length ≤ max_len then text
  else String.mk (text.data.take max_len) ++ "..."

/-- Python `str.strip()`. -/
def pyStrip (s : String) : String :=
  String.mk (((s.data.dropWhile Char.isWhitespace).reverse.dropWhile Char.isWhitespace).reverse)

/-- The opening brace character, written by code point. -/
def lbrace : Char := Char.ofNat 123

/-- The closing brace character, written by code point. -/
def rbrace : Char := Char.ofNat 125

/-- The first-brace / last-brace span extraction of backend.py 465-468:
`text.find` / `text.rfind` return `-1` (here `none`) when absent, and
`text[start : end + 1]` is taken otherwise (empty when they cross). -/
def spanBraces (text : String) : Option String :=
  let chars := text.data
  match chars.findIdx? (fun c => c == lbrace),
      (chars.reverse.findIdx? (fun c => c == rbrace)).map (fun i => chars.length - 1 - i) with
  | some s, some e => some (String.mk ((chars.drop s).take (e + 1 - s)))
  | _, _ => none

/-- The sample texts embedded in the analysis prompt (backend.py 451-454):
the first 30 comments, each body-or-text truncated with `safe_truncate`
to 800 characters. -/
def analyze_sample_texts (comments : List Comment) : List String :=
  (comments.take 30).map (fun c => safe_truncate (bodyOrText c) 800)

/-- `analyze_comments_with_anthropic` (backend.py 442-473). -/
def analyze_comments_with_anthropic (env : Env) (comments : List Comment)
    (source_name : String) : Dict × List Call :=
  if comments.isEmpty then
    ([("source", PyVal.str source_name), ("summary", PyVal.str ""),
      ("sentiment", PyVal.str "neutral"), ("themes", PyVal.arr []),
      ("representative", PyVal.arr [])], [])
  else
    let prompt := Prompt.analyzeComments (analyze_sample_texts comments)
    match anthropic_complete env prompt with
    | (Except.error _, calls) =>
        ([("source", PyVal.str source_name), ("summary", PyVal.str "(analysis failed)"),
          ("sentiment", PyVal.str "unknown"), ("themes", PyVal.arr []),
          ("representative", PyVal.arr [])], calls)
    | (Except.ok resp, calls) =>
        match spanBraces (pyStrip resp) with
        | some span =>
            match env.jsonParse span with
            | some payload => (dictSetdefault payload "source" (PyVal.str source_name), calls)
            | none => ([("source", PyVal.str source_name), ("summary", PyVal.str resp)], calls)
        | none => ([("source", PyVal.str source_name), ("summary", PyVal.str resp)], calls)

/-- The `financial_keywords` title filter list (backend.py 201). -/
def financial_keywords : List String :=
  ["stock", "invest", "earnings", "analysis", "buy", "sell", "financial", "dividend",
   "valuation", "portfolio", "market"]

/-- The paging loop of `fetch_comments_for_video` (backend.py 356-380):
each page request is answered by the next element of `pages`; a 403
discards everything collected so far, any other HTTP error is raised and
caught (also yielding `[]`), otherwise up to the remaining quota of
comments is appended and paging continues while a next-page token is
present.  An exhausted `pages` list models the provider ending
pagination. -/
def fcfvLoop (max_comments : Nat) : List Page → List Comment → List Comment
  | [], comments => comments
  | page :: rest, comments =>
      if comments.length ≥ max_comments then comments
      else if page.status = 403 then []
      else if 400 ≤ page.status then []
      else
        let comments2 := comments ++ page.items.take (max_comments - comments.length)
        if page.nextPageToken then fcfvLoop max_comments rest comments2 else comments2

/-- `fetch_comments_for_video` (backend.py 348-383). -/
def fetch_comments_for_video (key : String) (pages : List Page) (max_comments : Nat) :
    List Comment :=
  if key = "" then [] else fcfvLoop max_comments pages []

/-- The video loop of `fetch_youtube_comments_for_query`
(backend.py 191-231): stop once enough videos yielded relevant comments,
skip non-financial titles, fetch and filter each video's comments, and
collect the survivors plus a per-video summary.  One
`youtubeCommentThreads` trace entry is recorded per video whose comment
thread is requested. -/
def ytVideoLoop (env : Env) (max_videos max_comments_per_video : Nat) :
    List VideoItem → Nat → List Comment × List VideoSummary × List Call
  | [], _ => ([], [], [])
  | v :: rest, videos_with_comments =>
      if videos_with_comments ≥ max_videos then ([], [], [])
      else if ¬ (financial_keywords.any (fun kw => strIn kw (pyLowerChars v.title))) then
        ytVideoLoop env max_videos max_comments_per_video rest videos_with_comments
      else
        let comment_list :=
          fetch_comments_for_video env.youtubeKey (env.commentPages v.videoId)
            max_comments_per_video
        if comment_list ≠ [] then
          let relevant_comments := filter_financial_comments comment_list
          if relevant_comments ≠ [] then
            let r := ytVideoLoop env max_videos max_comments_per_video rest
              (videos_with_comments + 1)
            (relevant_comments ++ r.1,
             { video_id := v.videoId, title := v.title,
               url := "https://www.youtube.com/watch?v=" ++ v.videoId,
               top_comments := relevant_comments.take 3 } :: r.2.1,
             Call.youtubeCommentThreads v.videoId :: r.2.2)
          else
            let r := ytVideoLoop env max_videos max_comments_per_video rest videos_with_comments
            (r.1, r.2.1, Call.youtubeCommentThreads v.videoId :: r.2.2)
        else
          let r := ytVideoLoop env max_videos max_comments_per_video rest videos_with_comments
          (r.1, r.2.1, Call.youtubeCommentThreads v.videoId :: r.2.2)

/-- `fetch_youtube_comments_for_query` (backend.py 141-237): silently
disabled without a key; an explicit 403 on the search, any other HTTP
error, or a raised exception yields the empty result; otherwise the
video loop runs over the returned items (the `maxResults = 3 × max_videos`
request parameter only shapes the provider response, which the
environment supplies). -/
def fetch_youtube_comments_for_query (env : Env) (query : String)
    (max_videos max_comments_per_video : Nat) : YTData × List Call :=
  if env.youtubeKey = "" then ({ all_comments := [], videos := [] }, [])
  else
    match env.search with
    | SearchOutcome.exn _ => ({ all_comments := [], videos := [] }, [Call.youtubeSearch])
    | SearchOutcome.resp status items =>
        if status = 403 then ({ all_comments := [], videos := [] }, [Call.youtubeSearch])
        else if 400 ≤ status then ({ all_comments := [], videos := [] }, [Call.youtubeSearch])
        else
          let r := ytVideoLoop env max_videos max_comments_per_video items 0
          ({ all_comments := r.1, videos := r.2.1 }, Call.youtubeSearch :: r.2.2)

/-- The metadata dict returned by `validate_ticker` (backend.py 37-64):
`name` is present only on success, `info` is `none` for an absent/empty
provider info dict. -/
structure ValidationMeta where
  message : String
  name : Option String
  info : Option Info
deriving DecidableEq, Repr

/-- `validate_ticker` (backend.py 37-64): invalid when the provider info
fetch raises, returns an empty dict, or yields no truthy
`longName`/`shortName`. -/
def validate_ticker (fetched : Except String (Option Info)) (ticker : String) :
    Bool × ValidationMeta :=
  match fetched with
  | Except.error e =>
      (false, { message := s!"Failed to fetch ticker info: {e}", name := none, info := none })
  | Except.ok none =>
      (false, { message := s!"Ticker {ticker} not found or no info available",
                name := none, info := none })
  | Except.ok (some info) =>
      let name := pyOrStr info.longName info.shortName
      if optStrFalsy name then
        (false, { message := s!"Ticker {ticker} appears invalid (no company name found)",
                  name := none, info := some info })
      else
        (true, { message := "ok", name := name, info := some info })

/-- `fetch_yahoo_company` (backend.py 67-94): the body is provider
interaction (static info, 90-day history, date normalization); the
environment supplies its result, and one market-data call is traced. -/
def fetch_yahoo_company (env : Env) (_ticker : String) : YahooData × List Call :=
  (env.yahooData, [Call.fetchYahoo])

/-- `fetch_wikipedia_summary` (backend.py 114-137): a single provider
request whose (possibly empty) result the environment supplies. -/
def fetch_wikipedia_summary (env : Env) (_query : String) : Option WikiPage × List Call :=
  (env.wiki, [Call.fetchWikipedia])

/-- The compact metadata dict of `extract_ticker_metadata_from_info`
(backend.py 97-111); `none` models the empty dict returned for falsy
input. -/
structure TickerMetadata where
  name : Option String
  sector : Option String
  industry : Option String
  market_cap : Option ℚ
  trailing_pe : Option ℚ
  forward_pe : Option ℚ
  beta : Option ℚ
  website : Option String
  country : Option String
deriving DecidableEq, Repr

/-- `extract_ticker_metadata_from_info` (backend.py 97-111). -/
def extract_ticker_metadata_from_info : Option Info → Option TickerMetadata
  | none => none
  | some info => some
      { name := pyOrStr info.longName info.shortName
        sector := info.sector
        industry := info.industry
        market_cap := info.marketCap
        trailing_pe := info.trailingPE
        forward_pe := info.forwardPE
        beta := info.beta
        website := info.website
        country := info.country }

/-- Decimal rendering of a rational in the metrics text.  The Python
code formats floats with two decimals; the rendering itself carries no
program state, so the exact decimal string is abstracted to `toString`. -/
def fmtQ (q : ℚ) : String := toString q

/-- Python string rendering of an optional string inside an f-string
(`None` prints as `None`). -/
def pyShow (o : Option String) : String :=
  match o with
  | some s => s
  | none => "None"

/-- `format_metrics_text` (backend.py 544-583): one line per present
metric, in source order.  The volatility line of the source prints
`pstdev * sqrt(252)`, the square root of the modelled
`volatility_annual_approx_sq`; number rendering is abstracted by `fmtQ`.
The `if not metrics` guard of line 546 is unreachable in the pipeline
(the metrics dict always carries keys) and is not modelled. -/
def format_metrics_text (metrics : Metrics) : String :=
  let lines : List String :=
    (match metrics.sector with
     | some s => if s = "" then [] else
        [s!"Sector: {s}, Industry: " ++ pyShow metrics.industry]
     | none => [])
    ++ (match metrics.market_cap with
        | some mc =>
            [if mc ≥ 1000000000000 then s!"Market cap: $" ++ fmtQ (mc / 1000000000000) ++ "T"
             else if mc ≥ 1000000000 then s!"Market cap: $" ++ fmtQ (mc / 1000000000) ++ "B"
             else if mc ≥ 1000000 then s!"Market cap: $" ++ fmtQ (mc / 1000000) ++ "M"
             else s!"Market cap: $" ++ fmtQ mc]
        | none => [])
    ++ (match metrics.trailing_pe with
        | some v => [s!"Trailing P/E: " ++ fmtQ v]
        | none => [])
    ++ (match metrics.forward_pe with
        | some v => [s!"Forward P/E: " ++ fmtQ v]
        | none => [])
    ++ (match metrics.beta with
        | some v => [s!"Beta: " ++ fmtQ v]
        | none => [])
    ++ (match metrics.period_pct_change with
        | some v => [s!"Price change over sample: " ++ fmtQ v ++ "%"]
        | none => [])
    ++ (match metrics.ma_50 with
        | some v => [s!"MA-50 (approx): " ++ fmtQ v]
        | none => [])
    ++ (match metrics.ma_200 with
        | some v => [s!"MA-200 (approx): " ++ fmtQ v]
        | none => [])
    ++ (match metrics.volatility_annual_approx_sq with
        | some v => [s!"Approx annual volatility (std): sqrt " ++ fmtQ v]
        | none => [])
    ++ (match metrics.avg_volume with
        | some v => [s!"Avg volume (sample): " ++ toString (pyInt v)]
        | none => [])
  String.intercalate "\n" lines

/-- The `inputs` sub-dict of the comparator result (backend.py 605). -/
structure ComparatorInputs where
  yahoo_summary : String
  web_summary : String
  metrics_text : String
deriving DecidableEq, Repr

/-- The dict returned by `compare_and_summarize` (backend.py 586-608). -/
structure ComparatorResult where
  markdown : String
  source : String
  inputs : ComparatorInputs
  error : Option String
deriving DecidableEq, Repr

/-- `compare_and_summarize` (backend.py 586-608): build the fusion
prompt from the market-data summary, encyclopedic summary, social
analyses and attached metrics text; on provider failure return the
error-markdown placeholder with the error recorded.  A `None`
business summary is rendered as the empty string here. -/
def compare_and_summarize (env : Env) (yahoo : YahooData) (web : Option WikiPage)
    (social_summaries : List Dict) : ComparatorResult × List Call :=
  let yahoo_summary :=
    if yahoo.summary ≠ "" then yahoo.summary
    else match yahoo.info with
      | some i => i.longBusinessSummary.getD ""
      | none => ""
  let web_summary :=
    match web with
    | some p => p.summary.getD ""
    | none => ""
  let metrics_text := yahoo.metrics_text
  let prompt := Prompt.compare yahoo_summary web_summary social_summaries metrics_text
  match anthropic_complete env prompt with
  | (Except.ok md, calls) =>
      ({ markdown := md, source := "anthropic",
         inputs := { yahoo_summary := yahoo_summary, web_summary := web_summary,
                     metrics_text := metrics_text },
         error := none }, calls)
  | (Except.error e, calls) =>
      ({ markdown := "# Error\nLLM comparator failed to run.", source := "anthropic",
         inputs := { yahoo_summary := yahoo_summary, web_summary := web_summary,
                     metrics_text := metrics_text },
         error := some e }, calls)

/-- The report header (backend.py 648-652); `generated_at` is the
environment-supplied timestamp. -/
structure Header where
  title : String
  sources : List String
  generated_at : String
deriving DecidableEq, Repr

/-- The full report dict assembled on the success path
(backend.py 655-667). -/
structure FullReport where
  ticker : String
  company_name : String
  metadata : Option TickerMetadata
  yahoo : YahooData
  wikipedia : Option WikiPage
  social_analyses : List Dict
  youtube_videos : List VideoSummary
  metrics : Metrics
  metrics_text : String
  comparator : ComparatorResult
  header : Header

/-- The value returned by `generate_company_report`: either the typed
validation-error dict `(error, message)` of backend.py 624 or the full
report. -/
inductive Report where
  | error (error : String) (message : String)
  | ok (r : FullReport)

/-- `generate_company_report` (backend.py 611-669): validate, fan out to
the fetchers, analyze the comment corpus, compute and format metrics,
attach the metrics text to the market-data dict, run the comparator and
assemble the report.  A validation failure returns the typed error
payload at once, with an empty call trace. -/
def generate_company_report (env : Env) (ticker : String) : Report × List Call :=
  match validate_ticker env.infoFetch ticker with
  | (false, meta) => (Report.error "ticker_validation_failed" meta.message, [])
  | (true, meta) =>
      let company_name := meta.name.getD ""
      let yahooR := fetch_yahoo_company env ticker
      let yahoo := yahooR.1
      let webR := fetch_wikipedia_summary env company_name
      let web := webR.1
      let ytR := fetch_youtube_comments_for_query env company_name 5 100
      let yt_comments := ytR.1.all_comments
      let yt_videos := ytR.1.videos
      let analysisR := analyze_comments_with_anthropic env yt_comments "YouTube"
      let yt_analysis := analysisR.1
      let metrics := compute_company_metrics yahoo
      let metrics_text := format_metrics_text metrics
      let yahoo2 := { yahoo with metrics_text := metrics_text }
      let compR := compare_and_summarize env yahoo2 web [yt_analysis]
      let header : Header :=
        { title := "Company Insight Report: " ++ company_name ++ " (" ++ ticker.toUpper ++ ")"
          sources := ["Yahoo Finance", "Wikipedia", "YouTube"]
          generated_at := env.now }
      (Report.ok
        { ticker := ticker.toUpper
          company_name := company_name
          metadata := extract_ticker_metadata_from_info yahoo.info
          yahoo := yahoo2
          wikipedia := web
          social_analyses := [yt_analysis]
          youtube_videos := yt_videos
          metrics := metrics
          metrics_text := metrics_text
          comparator := compR.1
          header := header },
       yahooR.2 ++ webR.2 ++ ytR.2 ++ analysisR.2 ++ compR.2)

/-! ### Claim theorems for the LLM synthesizer, the fetch and the orchestrator -/

/-- A base environment in which every provider fails or is disabled. -/
def envBase : Env :=
  { infoFetch := Except.error "boom"
    yahooData := {}
    wiki := none
    youtubeKey := ""
    search := SearchOutcome.exn ""
    commentPages := fun _ => []
    anthropicKey := ""
    llmResponse := fun _ => Except.error ""
    jsonParse := fun _ => none
    now := "" }

/-- C2: whenever ticker validation fails, the orchestrator returns the
typed error payload — only the error identifier and the human-readable
message — and performs no source fetch and no LLM call (empty call
trace). -/
theorem claim_C2 (env : Env) (ticker : String) (meta : ValidationMeta)
    (h : validate_ticker env.infoFetch ticker = (false, meta)) :
    generate_company_report env ticker
      = (Report.error "ticker_validation_failed" meta.message, []) := by
  unfold generate_company_report
  rw [h]

theorem claim_C2_witness :
    validate_ticker envBase.infoFetch "ZZZ"
      = (false, { message := "Failed to fetch ticker info: boom", name := none, info := none })
    ∧ generate_company_report envBase "ZZZ"
      = (Report.error "ticker_validation_failed" "Failed to fetch ticker info: boom", []) :=
  ⟨rfl, claim_C2 envBase "ZZZ"
    { message := "Failed to fetch ticker info: boom", name := none, info := none } rfl⟩

/-- C7: on the empty comment list the analyzer returns the canonical
neutral analysis — sentiment `neutral`, empty summary, empty themes and
representative quotes — and performs no LLM call. -/
theorem claim_C7 (env : Env) (source_name : String) :
    analyze_comments_with_anthropic env [] source_name
      = ([("source", PyVal.str source_name), ("summary", PyVal.str ""),
          ("sentiment", PyVal.str "neutral"), ("themes", PyVal.arr []),
          ("representative", PyVal.arr [])], []) := rfl

/-- The environment whose LLM answers every prompt with a brace-free
text. -/
def envC4 : Env :=
  { envBase with anthropicKey := "k", llmResponse := fun _ => Except.ok "no json here" }

/-- A single plain comment used as analyzer input. -/
def c4comment : Comment := { author := none, body := none, text := some "hello" }

/-- C4 as stated is false: on a response that fails the first-brace /
last-brace JSON extraction, the analyzer returns the summary-only dict
`(source, summary = raw text)` with NO sentiment key at all — the
sentiment field is absent rather than the value `unknown` (that value is
produced only when the LLM call itself fails). -/
theorem claim_C4_counterexample :
    spanBraces (pyStrip "no json here") = none
    ∧ (analyze_comments_with_anthropic envC4 [c4comment] "YouTube").1
        = [("source", PyVal.str "YouTube"), ("summary", PyVal.str "no json here")]
    ∧ dictGet (analyze_comments_with_anthropic envC4 [c4comment] "YouTube").1 "sentiment"
        = none
    ∧ (none : Option PyVal) ≠ some (PyVal.str "unknown") :=
  ⟨rfl, rfl, rfl, by simp⟩

/-- C4 amended: for every nonempty comment list and successful LLM
response that cannot be parsed as JSON via the first-brace / last-brace
span extraction (no braces, or the span fails to parse), the analyzer
returns exactly the summary-only dict `(source, summary = raw response)`
— with no sentiment field. -/
theorem claim_C4 (env : Env) (comments : List Comment) (source_name resp : String)
    (hne : comments ≠ [])
    (hkey : env.anthropicKey ≠ "")
    (hresp : env.llmResponse (Prompt.analyzeComments (analyze_sample_texts comments))
      = Except.ok resp)
    (hparse : ∀ span, spanBraces (pyStrip resp) = some span → env.jsonParse span = none) :
    (analyze_comments_with_anthropic env comments source_name).1
      = [("source", PyVal.str source_name), ("summary", PyVal.str resp)] := by
  have hie : comments.isEmpty = false := by
    cases comments with
    | nil => exact absurd rfl hne
    | cons a t => rfl
  simp only [analyze_comments_with_anthropic, hie, Bool.false_eq_true, if_false,
    anthropic_complete, if_neg hkey, hresp]
  cases hsb : spanBraces (pyStrip resp) with
  | none => simp [hsb]
  | some span => simp [hsb, hparse span hsb]

theorem claim_C4_witness :
    (analyze_comments_with_anthropic envC4 [c4comment] "News").1
      = [("source", PyVal.str "News"), ("summary", PyVal.str "no json here")] :=
  claim_C4 envC4 [c4comment] "News" "no json here" (by simp) (by decide) rfl
    (fun span h => by
      rw [show spanBraces (pyStrip "no json here") = none from rfl] at h
      exact Option.noConfusion h)

theorem safe_truncate_length_le (s : String) (n : Nat) :
    (safe_truncate s n).length ≤ n + 3 := by
  unfold safe_truncate
  split_ifs with h1 h2
  · rw [h1]; simp [String.length]
  · omega
  · rw [String.length_append]
    have hm : (String.mk (s.data.take n)).length = min n s.data.length := by
      show (s.data.take n).length = min n s.data.length
      exact List.length_take n s.data
    rw [hm]
    have : min n s.data.length ≤ n := min_le_left _ _
    have h3 : ("..." : String).length = 3 := rfl
    omega

theorem analyze_calls_eq (env : Env) (comments : List Comment) (source_name : String)
    (hne : comments ≠ []) :
    (analyze_comments_with_anthropic env comments source_name).2
      = (anthropic_complete env
          (Prompt.analyzeComments (analyze_sample_texts comments))).2 := by
  have hie : comments.isEmpty = false := by
    cases comments with
    | nil => exact absurd rfl hne
    | cons a t => rfl
  simp only [analyze_comments_with_anthropic, hie, Bool.false_eq_true, if_false]
  rcases hac : anthropic_complete env (Prompt.analyzeComments (analyze_sample_texts comments))
    with ⟨res, calls⟩
  cases res with
  | error e => simp
  | ok resp =>
      cases hsb : spanBraces (pyStrip resp) with
      | none => simp [hsb]
      | some span =>
          cases hjp : env.jsonParse span with
          | none => simp [hsb, hjp]
          | some payload => simp [hsb, hjp]

/-- C6: on every nonempty comment list, at most the first 30 comments
contribute sample texts, every embedded sample text has at most 2000
characters (the source truncates to 800, plus a 3-character ellipsis),
and every LLM call the analyzer performs carries exactly the prompt
built from those sample texts. -/
theorem claim_C6 (env : Env) (comments : List Comment) (source_name : String)
    (hne : comments ≠ []) :
    analyze_sample_texts comments
        = (comments.take 30).map (fun c => safe_truncate (bodyOrText c) 800)
    ∧ (analyze_sample_texts comments).length ≤ 30
    ∧ (∀ t ∈ analyze_sample_texts comments, t.length ≤ 2000)
    ∧ (∀ c ∈ (analyze_comments_with_anthropic env comments source_name).2,
        c = Call.llm (Prompt.analyzeComments (analyze_sample_texts comments))) := by
  refine ⟨rfl, ?_, ?_, ?_⟩
  · rw [analyze_sample_texts, List.length_map, List.length_take]
    exact min_le_left _ _
  · intro t ht
    obtain ⟨c, -, rfl⟩ := List.mem_map.mp ht
    have := safe_truncate_length_le (bodyOrText c) 800
    omega
  · intro call hcall
    rw [analyze_calls_eq env comments source_name hne] at hcall
    unfold anthropic_complete at hcall
    by_cases hk : env.anthropicKey = ""
    · rw [if_pos hk] at hcall
      exact absurd hcall (List.not_mem_nil call)
    · rw [if_neg hk] at hcall
      simpa using hcall

theorem claim_C6_witness :
    ([c4comment] : List Comment) ≠ []
    ∧ (analyze_sample_texts [c4comment]
          = (([c4comment] : List Comment).take 30).map
              (fun c => safe_truncate (bodyOrText c) 800)
      ∧ (analyze_sample_texts [c4comment]).length ≤ 30
      ∧ (∀ t ∈ analyze_sample_texts [c4comment], t.length ≤ 2000)
      ∧ (∀ c ∈ (analyze_comments_with_anthropic envC4 [c4comment] "YouTube").2,
          c = Call.llm (Prompt.analyzeComments (analyze_sample_texts [c4comment])))) :=
  ⟨by simp, claim_C6 envC4 [c4comment] "YouTube" (by simp)⟩

/-- The financial video items, comments and pages of the C5
counterexample environment. -/
def v1 : VideoItem := ⟨"v1", "AcmeCorp stock analysis"⟩

/-- The second financial video of the C5 counterexample environment. -/
def v2 : VideoItem := ⟨"v2", "AcmeCorp stock deep dive"⟩

/-- A comment that survives the relevance filter. -/
def goodComment : Comment :=
  ⟨some "sam", none,
   some "I think this stock is overvalued and the pe ratio is way too high for this kind of growth, would not buy right now"⟩

/-- A comment-thread page answered with HTTP 403. -/
def page403 : Page := ⟨403, [], false⟩

/-- A successful single comment-thread page. -/
def pageGood : Page := ⟨200, [goodComment], false⟩

/-- Environment in which the search succeeds with two financial videos;
the first video's comment thread answers 403, the second one succeeds. -/
def envC5 : Env :=
  { envBase with
    youtubeKey := "k"
    search := SearchOutcome.resp 200 [v1, v2]
    commentPages := fun vid => if vid = "v1" then [page403] else [pageGood] }

/-- Environment in which the video search itself answers 403. -/
def envC5s : Env :=
  { envBase with youtubeKey := "k", search := SearchOutcome.resp 403 [] }

set_option maxRecDepth 400000 in
/-- C5 as stated is false: a 403 on a comment-thread page does not
short-circuit the whole fetch.  In `envC5` the first video's comment
call returns 403 (yielding an empty list for that video only), the loop
continues, and the fetch returns the second video's relevant comment —
a nonempty result. -/
theorem claim_C5_counterexample :
    envC5.commentPages "v1" = [page403]
    ∧ page403.status = 403
    ∧ (fetch_youtube_comments_for_query envC5 "AcmeCorp" 5 100).1.all_comments
        = [goodComment]
    ∧ [goodComment] ≠ ([] : List Comment) := by
  refine ⟨rfl, rfl, ?_, by simp⟩
  decide

theorem fcfvLoop_403 (mc : Nat) (page : Page) (rest : List Page) (acc : List Comment)
    (hlt : acc.length < mc) (h403 : page.status = 403) :
    fcfvLoop mc (page :: rest) acc = [] := by
  rw [fcfvLoop, if_neg (by omega : ¬ acc.length ≥ mc), if_pos h403]

/-- C5 amended: an explicit 403 on the video search call short-circuits
the whole fetch with the empty result.  A 403 on any comment-thread
page — also mid-pagination, after earlier pages already collected
comments — discards everything collected for that video and yields the
empty comment list for that video only; the video loop then continues
with the remaining candidates unchanged (recording the comment-thread
call). -/
theorem claim_C5 :
    (∀ (env : Env) (q : String) (mv mc : Nat) (items : List VideoItem),
        env.youtubeKey ≠ "" → env.search = SearchOutcome.resp 403 items →
        fetch_youtube_comments_for_query env q mv mc
          = ({ all_comments := [], videos := [] }, [Call.youtubeSearch]))
    ∧ (∀ (mc : Nat) (page : Page) (rest : List Page) (acc : List Comment),
        acc.length < mc → page.status = 403 →
        fcfvLoop mc (page :: rest) acc = [])
    ∧ (∀ (key : String) (good page : Page) (rest : List Page) (mc : Nat),
        key ≠ "" → good.status ≠ 403 → good.status < 400 →
        good.nextPageToken = true → (good.items.take mc).length < mc →
        page.status = 403 →
        fetch_comments_for_video key (good :: page :: rest) mc = [])
    ∧ (∀ (env : Env) (mv mc : Nat) (v : VideoItem) (rest : List VideoItem) (cnt : Nat),
        cnt < mv →
        financial_keywords.any (fun kw => strIn kw (pyLowerChars v.title)) = true →
        fetch_comments_for_video env.youtubeKey (env.commentPages v.videoId) mc = [] →
        ytVideoLoop env mv mc (v :: rest) cnt
          = ((ytVideoLoop env mv mc rest cnt).1,
             (ytVideoLoop env mv mc rest cnt).2.1,
             Call.youtubeCommentThreads v.videoId
               :: (ytVideoLoop env mv mc rest cnt).2.2)) := by
  refine ⟨?_, ?_, ?_, ?_⟩
  · intro env q mv mc items hkey hsearch
    unfold fetch_youtube_comments_for_query
    rw [if_neg hkey, hsearch]
    simp
  · intro mc page rest acc hlt h403
    exact fcfvLoop_403 mc page rest acc hlt h403
  · intro key good page rest mc hkey h403g hlt400 hnext hltlen h403
    have hmc : 0 < mc := Nat.lt_of_le_of_lt (Nat.zero_le _) hltlen
    unfold fetch_comments_for_video
    rw [if_neg hkey]
    rw [fcfvLoop, if_neg (by simp only [List.length_nil]; omega : ¬ ([] : List Comment).length ≥ mc),
      if_neg h403g, if_neg (by omega : ¬ 400 ≤ good.status)]
    simp only [List.length_nil, List.nil_append, Nat.sub_zero, hnext, if_true]
    exact fcfvLoop_403 mc page rest (good.items.take mc) hltlen h403
  · intro env mv mc v rest cnt hcnt hfin hempty
    rw [ytVideoLoop]
    rw [if_neg (by omega : ¬ cnt ≥ mv)]
    rw [hfin]
    simp only [not_true_eq_false, if_false]
    rw [hempty]
    simp

/-- A successful comment-thread page announcing a next page. -/
def pageGoodNext : Page := ⟨200, [goodComment], true⟩

theorem claim_C5_witness :
    fetch_youtube_comments_for_query envC5s "q" 5 100
      = ({ all_comments := [], videos := [] }, [Call.youtubeSearch])
    ∧ fcfvLoop 100 [page403] [goodComment] = []
    ∧ fetch_comments_for_video "k" [pageGoodNext, page403] 100 = []
    ∧ ytVideoLoop envC5 5 100 [v1] 0
        = ((ytVideoLoop envC5 5 100 ([] : List VideoItem) 0).1,
           (ytVideoLoop envC5 5 100 ([] : List VideoItem) 0).2.1,
           Call.youtubeCommentThreads "v1"
             :: (ytVideoLoop envC5 5 100 ([] : List VideoItem) 0).2.2) := by
  refine ⟨claim_C5.1 envC5s "q" 5 100 [] (by decide) rfl,
          claim_C5.2.1 100 page403 [] [goodComment] (by decide) rfl,
          claim_C5.2.2.1 "k" pageGoodNext page403 [] 100 (by decide) (by decide) (by decide)
            rfl (by decide) rfl, ?_⟩
  exact claim_C5.2.2.2 envC5 5 100 v1 [] 0 (by omega) (by decide) (by decide)

end StockInsights
